import Mathlib

/-!
Verification of the fleet command execution and convergence-tracking subsystem
of the ambari-mcp-server repository.

The definitions below are a shallow embedding of the relevant TypeScript
source files:

- `src/ssh-client.ts` (executeRemoteCommand, executeRemoteCommandOnHosts)
- `src/k8s-client.ts` (executeInPod, executeInPods)
- `src/tools/ssh-tools.ts` (resolveHosts, ambari_ssh_restart_agent_and_wait,
  and the batch tools sharing the same targeting logic)
- `src/tools/k8s-tools.ts` (resolvePods, getPodHostnameMap,
  ambari_k8s_restart_agent_and_wait)

External effects (the SSH transport, kubectl, the Ambari REST API, wall-clock
time) are modelled as oracle functions passed in as parameters; the control
flow, state updates and result construction are transcribed from the source.
-/

set_option autoImplicit false

namespace AmbariMcp

/-! ### Data model (types.ts)

`SshCommandResult` and `K8sCommandResult` have the same shape; the former
identifies its endpoint by a `host` field, the latter by a `pod` field.
They are modelled by one structure whose `host` field is the endpoint id. -/

structure CommandResult where
  host : String
  success : Bool
  stdout : String
  stderr : String
  exitCode : Option Int
  error : Option String
deriving Repr, DecidableEq

/-- Model of the JS default `options.concurrency || 5` in
`executeRemoteCommandOnHosts` / `executeInPods`: an absent value and the
falsy value `0` both yield the default `5`. -/
def resolveConcurrency : Option Nat → Nat
  | none => 5
  | some 0 => 5
  | some c => c

/-- Model of the JS default `(args[waitTimeSeconds] as number) || 60` in the
restart-and-wait tool executors. -/
def resolveWaitTime : Option Nat → Nat
  | none => 60
  | some 0 => 60
  | some w => w

/-- Model of the JS expression `r.error || r.stderr` used when reporting a
failed restart: an absent or empty error string falls back to stderr. -/
def errorOrStderr (r : CommandResult) : String :=
  match r.error with
  | some e => if e = "" then r.stderr else e
  | none => r.stderr

/-! ### Batch runner (ssh-client.ts lines 148-172, k8s-client.ts lines 114-138)

The JS loop `for (let i = 0; i < hosts.length; i += concurrency)` takes the
slice `hosts.slice(i, i + concurrency)`, awaits `Promise.all` of the per-host
executions, and appends the window results in order.  `executeInPods` is
line-for-line identical over pod names.  The per-endpoint execution is
abstracted as the oracle `exec`; `Promise.all` preserves the order of the
window, which the list `map` reflects.  The guard `options.concurrency || 5`
makes a concurrency of `0` unreachable, so the `concurrency - 1` recursion
below agrees with the source for every reachable concurrency. -/

def executeRemoteCommandOnHosts (exec : String → CommandResult) (concurrency : Nat) :
    (hosts : List String) → List CommandResult
  | [] => []
  | h :: t =>
    (exec h :: (t.take (concurrency - 1)).map exec)
      ++ executeRemoteCommandOnHosts exec concurrency (t.drop (concurrency - 1))
termination_by hosts => hosts.length
decreasing_by
  simp only [List.length_drop, List.length_cons]
  omega

/-- Window decomposition used by the batch runner: the consecutive slices
`hosts.slice(i, i + concurrency)` of the JS loop, in order. -/
def chunkHosts (concurrency : Nat) : (hosts : List String) → List (List String)
  | [] => []
  | h :: t =>
    (h :: t.take (concurrency - 1)) :: chunkHosts concurrency (t.drop (concurrency - 1))
termination_by hosts => hosts.length
decreasing_by
  simp only [List.length_drop, List.length_cons]
  omega

theorem executeRemoteCommandOnHosts_eq_map (exec : String → CommandResult) (c : Nat) :
    (hosts : List String) → executeRemoteCommandOnHosts exec c hosts = hosts.map exec
  | [] => by simp [executeRemoteCommandOnHosts]
  | h :: t => by
    rw [executeRemoteCommandOnHosts,
      executeRemoteCommandOnHosts_eq_map exec c (t.drop (c - 1))]
    simp [← List.map_append, List.take_append_drop]
termination_by hosts => hosts.length
decreasing_by
  simp only [List.length_drop, List.length_cons]
  omega

theorem chunkHosts_flatten (c : Nat) :
    (hosts : List String) → (chunkHosts c hosts).flatten = hosts
  | [] => by simp [chunkHosts]
  | h :: t => by
    rw [chunkHosts, List.flatten_cons, chunkHosts_flatten c (t.drop (c - 1))]
    simp [List.take_append_drop]
termination_by hosts => hosts.length
decreasing_by
  simp only [List.length_drop, List.length_cons]
  omega

theorem executeRemoteCommandOnHosts_eq_chunked (exec : String → CommandResult) (c : Nat) :
    (hosts : List String) →
      executeRemoteCommandOnHosts exec c hosts
        = ((chunkHosts c hosts).map (List.map exec)).flatten
  | [] => by simp [executeRemoteCommandOnHosts, chunkHosts]
  | h :: t => by
    rw [executeRemoteCommandOnHosts, chunkHosts,
      executeRemoteCommandOnHosts_eq_chunked exec c (t.drop (c - 1))]
    simp
termination_by hosts => hosts.length
decreasing_by
  simp only [List.length_drop, List.length_cons]
  omega

theorem chunkHosts_window_size (c : Nat) (hc : 1 ≤ c) :
    (hosts : List String) → ∀ w ∈ chunkHosts c hosts, w ≠ [] ∧ w.length ≤ c
  | [] => by simp [chunkHosts]
  | h :: t => by
    rw [chunkHosts]
    intro w hw
    rcases List.mem_cons.mp hw with hw | hw
    · subst hw
      refine ⟨List.cons_ne_nil _ _, ?_⟩
      simp only [List.length_cons, List.length_take]
      omega
    · exact chunkHosts_window_size c hc (t.drop (c - 1)) w hw
termination_by hosts => hosts.length
decreasing_by
  simp only [List.length_drop, List.length_cons]
  omega

theorem chunkHosts_ne_nil (c : Nat) (h : String) (t : List String) :
    chunkHosts c (h :: t) ≠ [] := by
  rw [chunkHosts]
  exact List.cons_ne_nil _ _

theorem chunkHosts_full_windows (c : Nat) (hc : 1 ≤ c) :
    (hosts : List String) → ∀ w ∈ (chunkHosts c hosts).dropLast, w.length = c
  | [] => by simp [chunkHosts]
  | h :: t => by
    rw [chunkHosts]
    intro w hw
    match hrest : t.drop (c - 1) with
    | [] =>
      rw [hrest] at hw
      simp [chunkHosts] at hw
    | h2 :: t2 =>
      rw [hrest] at hw
      rw [List.dropLast_cons_of_ne_nil (chunkHosts_ne_nil c h2 t2)] at hw
      rcases List.mem_cons.mp hw with hw | hw
      · subst hw
        have hlen : c - 1 ≤ t.length := by
          by_contra hlt
          push_neg at hlt
          have : t.drop (c - 1) = [] := List.drop_eq_nil_of_le (Nat.le_of_lt hlt)
          rw [hrest] at this
          exact List.cons_ne_nil _ _ this
        simp only [List.length_cons, List.length_take]
        omega
      · exact chunkHosts_full_windows c hc (t.drop (c - 1)) w (by rw [hrest]; exact hw)
termination_by hosts => hosts.length
decreasing_by
  simp only [List.length_drop, List.length_cons]
  omega

/-! ### Per-call execution, ssh transport (ssh-client.ts lines 55-142)

`executeRemoteCommand` returns a promise whose executor installs a timeout
timer and event handlers on the ssh2 client.  The asynchronous part is
modelled as a state machine: an event is one callback invocation, and the
step function transcribes the body of the corresponding handler.  The field
`resolveCalls` records every call to `resolve`, in order; under JS promise
semantics only the first such call settles the promise.  `timeoutCleared`
models `clearTimeout` (a cleared or already-fired timer never fires). -/

inductive SshEvent where
  | timeoutFires
  | execErr (msg : String)
  | streamData (chunk : String)
  | stderrData (chunk : String)
  | streamClose (code : Int)
  | connError (msg : String)
deriving Repr, DecidableEq

structure SshState where
  stdout : String
  stderr : String
  resolved : Bool
  timeoutCleared : Bool
  clientEnded : Bool
  resolveCalls : List CommandResult
deriving Repr, DecidableEq

def sshInit : SshState :=
  { stdout := "", stderr := "", resolved := false, timeoutCleared := false,
    clientEnded := false, resolveCalls := [] }

/-- Error message of the ssh timeout firer (ssh-client.ts line 72). -/
def sshTimeoutMsg (timeout : Nat) : String :=
  "Connection timed out after " ++ toString timeout ++ "ms"

def sshStep (timeout : Nat) (host : String) (s : SshState) : SshEvent → SshState
  | .timeoutFires =>
    if s.timeoutCleared then s
    else
      let s1 := { s with timeoutCleared := true }
      if s1.resolved then s1
      else
        { s1 with
          resolved := true
          clientEnded := true
          resolveCalls := s1.resolveCalls ++
            [{ host := host, success := false, stdout := s1.stdout, stderr := s1.stderr,
               exitCode := none, error := some (sshTimeoutMsg timeout) }] }
  | .execErr msg =>
    -- ssh-client.ts lines 79-91: this path clears the timer, sets the flag and
    -- resolves WITHOUT first checking the flag.
    { s with
      timeoutCleared := true
      resolved := true
      clientEnded := true
      resolveCalls := s.resolveCalls ++
        [{ host := host, success := false, stdout := "", stderr := "",
           exitCode := none, error := some ("Command execution failed: " ++ msg) }] }
  | .streamData chunk => { s with stdout := s.stdout ++ chunk }
  | .stderrData chunk => { s with stderr := s.stderr ++ chunk }
  | .streamClose code =>
    let s1 := { s with timeoutCleared := true }
    if s1.resolved then s1
    else
      { s1 with
        resolved := true
        clientEnded := true
        resolveCalls := s1.resolveCalls ++
          [{ host := host, success := decide (code = 0), stdout := s1.stdout.trim,
             stderr := s1.stderr.trim, exitCode := some code, error := none }] }
  | .connError msg =>
    let s1 := { s with timeoutCleared := true }
    if s1.resolved then s1
    else
      { s1 with
        resolved := true
        resolveCalls := s1.resolveCalls ++
          [{ host := host, success := false, stdout := "", stderr := "",
             exitCode := none, error := some ("SSH connection error: " ++ msg) }] }

def sshRun (timeout : Nat) (host : String) (events : List SshEvent) : SshState :=
  events.foldl (sshStep timeout host) sshInit

/-! ### Per-call execution, kubectl transport (k8s-client.ts lines 29-108)

`executeInPod` spawns `kubectl exec` and resolves from the timeout firer, the
process close handler or the process error handler; every one of these paths
checks the `resolved` flag before resolving. -/

inductive K8sEvent where
  | timeoutFires
  | procStdout (chunk : String)
  | procStderr (chunk : String)
  | procClose (code : Option Int)
  | procError (msg : String)
deriving Repr, DecidableEq

structure K8sState where
  stdout : String
  stderr : String
  resolved : Bool
  timeoutCleared : Bool
  procKilled : Bool
  resolveCalls : List CommandResult
deriving Repr, DecidableEq

def k8sInit : K8sState :=
  { stdout := "", stderr := "", resolved := false, timeoutCleared := false,
    procKilled := false, resolveCalls := [] }

/-- Error message of the kubectl timeout firer (k8s-client.ts line 65). -/
def k8sTimeoutMsg (timeout : Nat) : String :=
  "Command timed out after " ++ toString timeout ++ "ms"

def k8sStep (timeout : Nat) (pod : String) (s : K8sState) : K8sEvent → K8sState
  | .timeoutFires =>
    if s.timeoutCleared then s
    else
      let s1 := { s with timeoutCleared := true }
      if s1.resolved then s1
      else
        { s1 with
          resolved := true
          procKilled := true
          resolveCalls := s1.resolveCalls ++
            [{ host := pod, success := false, stdout := s1.stdout, stderr := s1.stderr,
               exitCode := none, error := some (k8sTimeoutMsg timeout) }] }
  | .procStdout chunk => { s with stdout := s.stdout ++ chunk }
  | .procStderr chunk => { s with stderr := s.stderr ++ chunk }
  | .procClose code =>
    let s1 := { s with timeoutCleared := true }
    if s1.resolved then s1
    else
      { s1 with
        resolved := true
        resolveCalls := s1.resolveCalls ++
          [{ host := pod, success := decide (code = some 0), stdout := s1.stdout.trim,
             stderr := s1.stderr.trim, exitCode := code, error := none }] }
  | .procError msg =>
    let s1 := { s with timeoutCleared := true }
    if s1.resolved then s1
    else
      { s1 with
        resolved := true
        resolveCalls := s1.resolveCalls ++
          [{ host := pod, success := false, stdout := "", stderr := "",
             exitCode := none,
             error := some ("Failed to execute kubectl: " ++ msg
               ++ ". Is kubectl installed and in PATH?") }] }

def k8sRun (timeout : Nat) (pod : String) (events : List K8sEvent) : K8sState :=
  events.foldl (k8sStep timeout pod) k8sInit

/-- Settled-flag invariant of a per-call state: either nothing has resolved
and no resolution was recorded, or the flag is set and exactly one call to
resolve happened. -/
def SettledInv (resolved : Bool) (calls : List CommandResult) : Prop :=
  (resolved = false ∧ calls = []) ∨ (resolved = true ∧ calls.length = 1)

theorem k8sStep_settledInv (t : Nat) (p : String) (s : K8sState) (e : K8sEvent)
    (h : SettledInv s.resolved s.resolveCalls) :
    SettledInv (k8sStep t p s e).resolved (k8sStep t p s e).resolveCalls := by
  rcases h with ⟨h1, h2⟩ | ⟨h1, h2⟩ <;>
    cases e <;> simp [k8sStep, SettledInv, h1, h2] <;> split <;> simp_all

theorem k8sRun_settledInv (t : Nat) (p : String) (events : List K8sEvent) :
    SettledInv (k8sRun t p events).resolved (k8sRun t p events).resolveCalls := by
  suffices h : ∀ s : K8sState, SettledInv s.resolved s.resolveCalls →
      SettledInv (events.foldl (k8sStep t p) s).resolved
        (events.foldl (k8sStep t p) s).resolveCalls by
    exact h k8sInit (Or.inl ⟨rfl, rfl⟩)
  induction events with
  | nil => intro s hs; exact hs
  | cons e rest ih =>
    intro s hs
    exact ih (k8sStep t p s e) (k8sStep_settledInv t p s e hs)

theorem sshStep_settledInv (t : Nat) (h : String) (s : SshState) (e : SshEvent)
    (he : ∀ m, e ≠ SshEvent.execErr m)
    (hs : SettledInv s.resolved s.resolveCalls) :
    SettledInv (sshStep t h s e).resolved (sshStep t h s e).resolveCalls := by
  rcases hs with ⟨h1, h2⟩ | ⟨h1, h2⟩ <;> cases e
  case execErr m => exact absurd rfl (he m)
  case execErr m => exact absurd rfl (he m)
  all_goals simp [sshStep, SettledInv, h1, h2] <;> split <;> simp_all

theorem sshRun_settledInv (t : Nat) (h : String) (events : List SshEvent)
    (he : ∀ m, SshEvent.execErr m ∉ events) :
    SettledInv (sshRun t h events).resolved (sshRun t h events).resolveCalls := by
  suffices hgen : ∀ (evs : List SshEvent), (∀ m, SshEvent.execErr m ∉ evs) →
      ∀ s : SshState, SettledInv s.resolved s.resolveCalls →
      SettledInv (evs.foldl (sshStep t h) s).resolved
        (evs.foldl (sshStep t h) s).resolveCalls by
    exact hgen events he sshInit (Or.inl ⟨rfl, rfl⟩)
  intro evs
  induction evs with
  | nil => intro _ s hs; exact hs
  | cons e rest ih =>
    intro hmem s hs
    have he1 : ∀ m, e ≠ SshEvent.execErr m := by
      intro m hm
      exact hmem m (by rw [← hm] at *; exact List.mem_cons_self e rest)
    have hrest : ∀ m, SshEvent.execErr m ∉ rest := by
      intro m hm
      exact hmem m (List.mem_cons_of_mem e hm)
    exact ih hrest (sshStep t h s e) (sshStep_settledInv t h s e he1 hs)

/-! ### Convergence tracker (ssh-tools.ts lines 312-406, k8s-tools.ts lines 426-531)

The Ambari REST API is modelled by two oracles: `baselineFetch` for the
baseline heartbeat capture (outer `none` = the GET threw, inner `none` = the
`last_heartbeat_time` field was absent) and `obs` for the poll-tick health
reads, indexed by the tick number (outer `none` = the GET threw; the pair is
the optional `last_heartbeat_time` and optional `host_status` fields).
`dur k` is the wall-clock time the fetches of tick `k` consume; the fixed
5000 ms sleep at the top of each iteration is explicit in the loop. -/

def healthyLabel : String := "HEALTHY"

/-- Baseline heartbeat capture for one endpoint (ssh-tools.ts lines 334-343):
a failed fetch and an absent field both default to `0`. -/
def mkBaseline (baselineFetch : String → Option (Option Nat)) (host : String) : Nat :=
  match baselineFetch host with
  | none => 0
  | some hb => hb.getD 0

/-- Baseline capture in the k8s variant (k8s-tools.ts lines 453-465): the
fetch is attempted only for pods with a known hostname; `beforeHeartbeats`
has no entry otherwise, and the later lookup `beforeHeartbeats[podName] ?? 0`
yields `0`. -/
def k8sBaseline (hostnameMap : String → Option String)
    (baselineFetch : String → Option (Option Nat)) (pod : String) : Nat :=
  match hostnameMap pod with
  | none => 0
  | some _ => mkBaseline baselineFetch pod

/-- Convergence test applied to one pending endpoint during one poll tick
(ssh-tools.ts lines 371-390): re-registered iff the fetch succeeded, the
observed heartbeat (absent field defaulting to 0) is strictly newer than the
baseline, and the observed status is HEALTHY.  A thrown fetch is swallowed
(`catch` with empty body) and counts as not converged. -/
def sshCheck (baseline : String → Nat)
    (obs : Nat → String → Option (Option Nat × Option String))
    (tick : Nat) (host : String) : Bool :=
  match obs tick host with
  | none => false
  | some (hb, status) =>
    decide (baseline host < hb.getD 0) && decide (status = some healthyLabel)

/-- Convergence test in the k8s variant (k8s-tools.ts lines 493-515): a pod
with no entry in the pod-to-hostname map is skipped (`if (!hostname)
continue`), so it never converges; otherwise the test is the same. -/
def k8sCheck (hostnameMap : String → Option String) (baseline : String → Nat)
    (obs : Nat → String → Option (Option Nat × Option String))
    (tick : Nat) (pod : String) : Bool :=
  match hostnameMap pod with
  | none => false
  | some _ => sshCheck baseline obs tick pod

/-- One poll tick over the pending set: every still-pending endpoint is
checked; the converged ones are removed from `pending` and appended to
`reregistered` in detection order (the iteration order of the pending set). -/
def pollTick (check : Nat → String → Bool) (tick : Nat)
    (pending reregistered : List String) : List String × List String :=
  (pending.filter (fun h => !check tick h),
   reregistered ++ pending.filter (fun h => check tick h))

structure LoopResult where
  pending : List String
  reregistered : List String
  now : Nat
  ticks : Nat
deriving Repr, DecidableEq

/-- The polling loop (ssh-tools.ts lines 368-391, k8s-tools.ts lines 490-516):
`while (pending.size > 0 && Date.now() < endTime)`, each iteration sleeping
5000 ms and then fetching a fresh snapshot for every pending endpoint.
`now` is the elapsed time since the loop started, `deadline` is
`waitTimeSeconds * 1000`, and `ticks` counts iterations. -/
def convergeLoop (check : Nat → String → Bool) (dur : Nat → Nat) (deadline : Nat)
    (tick now : Nat) (pending reregistered : List String) : LoopResult :=
  if h : pending ≠ [] ∧ now < deadline then
    let next := pollTick check tick pending reregistered
    convergeLoop check dur deadline (tick + 1) (now + 5000 + dur tick) next.1 next.2
  else
    { pending := pending, reregistered := reregistered, now := now, ticks := tick }
termination_by deadline - now
decreasing_by omega

/-- Value returned by a restart-and-wait executor.  When every restart
command failed, the source returns early with only a summary line and the
formatted restart results (ssh-tools.ts lines 353-358); otherwise it returns
the full aggregate (ssh-tools.ts lines 395-405).  The `allFailed`
constructor carries the raw per-endpoint restart results that the source
formats into its `restart_results` string. -/
inductive RunOutcome where
  | allFailed (restartResults : List CommandResult)
  | aggregate (totalHosts restartSucceeded restartFailed reregisteredCount : Nat)
      (stillPending reregisteredHosts : List String)
      (failedRestartHosts : List (String × String)) (waitTimeSeconds : Nat)
deriving Repr, DecidableEq

def RunOutcome.hasAggregateFields : RunOutcome → Bool
  | .allFailed _ => false
  | .aggregate _ _ _ _ _ _ _ _ => true

/-! ### Targeting layer (ssh-tools.ts lines 105-133, k8s-tools.ts lines 164-195) -/

/-- Character-level model of the JS `arg.split(",")`: splitting a character
list at every comma (an empty input gives one empty field, as in JS). -/
def splitOnComma : List Char → List (List Char)
  | [] => [[]]
  | c :: rest =>
    if c = ',' then [] :: splitOnComma rest
    else
      match splitOnComma rest with
      | [] => [[c]]
      | w :: ws => (c :: w) :: ws

/-- Character-level model of the JS `String.prototype.trim`: strip leading
and trailing whitespace. -/
def trimChars (cs : List Char) : List Char :=
  ((cs.dropWhile Char.isWhitespace).reverse.dropWhile Char.isWhitespace).reverse

/-- Explicit comma-separated endpoint list parsing:
`arg.split(",").map(h => h.trim()).filter(h => h)`. -/
def splitEndpointsArg (s : String) : List String :=
  ((splitOnComma s.data).map (fun cs => String.mk (trimChars cs))).filter
    (fun h => h ≠ "")

/-- The JS truthiness test `arg && arg.trim()` is false exactly when the
argument is absent or all-whitespace. -/
def isBlank (s : String) : Bool := s.data.all Char.isWhitespace

/-- Model of `resolveHosts` (ssh-tools.ts lines 128-133): a present,
non-blank explicit list is parsed; otherwise all cluster hosts are used
(`getAllClusterHosts`, modelled by the `discovered` oracle). -/
def resolveHosts (hostsArg : Option String) (discovered : List String) : List String :=
  match hostsArg with
  | some s => if isBlank s then discovered else splitEndpointsArg s
  | none => discovered

structure PodInfo where
  name : String
  status : String
  ready : Bool
deriving Repr, DecidableEq

/-- Model of `resolvePods` (k8s-tools.ts lines 167-174): a present, non-blank
explicit list is parsed; otherwise the discovered pods are filtered to the
ready ones in Running phase. -/
def resolvePods (podsArg : Option String) (discovered : List PodInfo) : List String :=
  match podsArg with
  | some s =>
    if isBlank s then
      (discovered.filter (fun p => p.ready && p.status == "Running")).map PodInfo.name
    else splitEndpointsArg s
  | none => (discovered.filter (fun p => p.ready && p.status == "Running")).map PodInfo.name

/-- Shared shape of the one-shot ssh batch tools `ambari_ssh_restart_agent`,
`ambari_ssh_run_command` and `ambari_ssh_check_agent_status` (ssh-tools.ts
lines 186-310): configuration check, target resolution, explicit no-targets
error, then one batch dispatch.  The tools differ only in the command string
sent (folded into the `exec` oracle), the text of the no-targets message
(`emptyMsg`) and the post-processing of the results.  `attempted` lists the
endpoints a remote command was dispatched to. -/
def sshBatchTool (configured : Bool) (emptyMsg : String) (hostsArg : Option String)
    (discovered : List String) (exec : String → CommandResult) :
    Except String (List CommandResult) × List String :=
  if !configured then
    (.error "SSH is not configured. Please set SSH_PRIVATE_KEY_PATH in your .env file.", [])
  else
    let hosts := resolveHosts hostsArg discovered
    if hosts.isEmpty then (.error emptyMsg, [])
    else (.ok (executeRemoteCommandOnHosts exec 5 hosts), hosts)

/-- Shared shape of the one-shot k8s batch tools `ambari_k8s_restart_agent`,
`ambari_k8s_run_command` and `ambari_k8s_check_agent_status` (k8s-tools.ts
lines 302-424). -/
def k8sBatchTool (configured : Bool) (emptyMsg : String) (podsArg : Option String)
    (discovered : List PodInfo) (exec : String → CommandResult) :
    Except String (List CommandResult) × List String :=
  if !configured then
    (.error "Kubernetes mode is not configured. Please set K8S_POD_LABEL_SELECTOR in your .env file.", [])
  else
    let pods := resolvePods podsArg discovered
    if pods.isEmpty then (.error emptyMsg, [])
    else (.ok (executeRemoteCommandOnHosts exec 5 pods), pods)

/-- Model of the `ambari_ssh_restart_agent_and_wait` executor (ssh-tools.ts
lines 312-406).  `restartExec` is the per-host outcome of the restart batch;
`Except.error` models a thrown `McpError`.  The JS `new Set(restartedHosts)`
keeps first-occurrence insertion order, which on duplicate-free host lists is
the filtered list used here. -/
def ambari_ssh_restart_agent_and_wait (configured : Bool) (hostsArg : Option String)
    (discovered : List String) (restartExec : String → CommandResult)
    (baselineFetch : String → Option (Option Nat))
    (obs : Nat → String → Option (Option Nat × Option String))
    (dur : Nat → Nat) (waitArg : Option Nat) : Except String RunOutcome :=
  if !configured then
    .error "SSH is not configured. Please set SSH_PRIVATE_KEY_PATH in your .env file."
  else
    let waitTimeSeconds := resolveWaitTime waitArg
    let hosts := resolveHosts hostsArg discovered
    if hosts.isEmpty then .error "No hosts found."
    else
      let restartResults := executeRemoteCommandOnHosts restartExec 5 hosts
      let restartedHosts := (restartResults.filter (fun r => r.success)).map CommandResult.host
      let failedRestarts := restartResults.filter (fun r => !r.success)
      if restartedHosts.isEmpty then .ok (.allFailed restartResults)
      else
        let r := convergeLoop (sshCheck (mkBaseline baselineFetch) obs) dur
          (waitTimeSeconds * 1000) 0 0 restartedHosts []
        .ok (.aggregate hosts.length restartedHosts.length failedRestarts.length
          r.reregistered.length r.pending r.reregistered
          (failedRestarts.map (fun f => (f.host, errorOrStderr f)))
          ((r.now + 500) / 1000))

/-- Model of the `ambari_k8s_restart_agent_and_wait` executor (k8s-tools.ts
lines 426-531).  `hostnameMap` is the result of `getPodHostnameMap`; pods
without an entry are skipped by every poll tick and get baseline 0. -/
def ambari_k8s_restart_agent_and_wait (configured : Bool) (podsArg : Option String)
    (discovered : List PodInfo) (hostnameMap : String → Option String)
    (restartExec : String → CommandResult)
    (baselineFetch : String → Option (Option Nat))
    (obs : Nat → String → Option (Option Nat × Option String))
    (dur : Nat → Nat) (waitArg : Option Nat) : Except String RunOutcome :=
  if !configured then
    .error "Kubernetes mode is not configured. Please set K8S_POD_LABEL_SELECTOR in your .env file."
  else
    let waitTimeSeconds := resolveWaitTime waitArg
    let podNames := resolvePods podsArg discovered
    if podNames.isEmpty then .error "No pods found."
    else
      let restartResults := executeRemoteCommandOnHosts restartExec 5 podNames
      let restartedPods := (restartResults.filter (fun r => r.success)).map CommandResult.host
      let failedRestarts := restartResults.filter (fun r => !r.success)
      if restartedPods.isEmpty then .ok (.allFailed restartResults)
      else
        let r := convergeLoop
          (k8sCheck hostnameMap (k8sBaseline hostnameMap baselineFetch) obs) dur
          (waitTimeSeconds * 1000) 0 0 restartedPods []
        .ok (.aggregate podNames.length restartedPods.length failedRestarts.length
          r.reregistered.length r.pending r.reregistered
          (failedRestarts.map (fun f => (f.host, errorOrStderr f)))
          ((r.now + 500) / 1000))

/-! ### Loop lemmas -/

theorem convergeLoop_ticks_le (check : Nat → String → Bool) (dur : Nat → Nat)
    (deadline : Nat) :
    (tick now : Nat) → (pending reregistered : List String) →
      (convergeLoop check dur deadline tick now pending reregistered).ticks
        ≤ tick + (deadline - now + 4999) / 5000 := by
  intro tick now pending reregistered
  rw [convergeLoop]
  split
  case isTrue h =>
    have hrec :=
      convergeLoop_ticks_le check dur deadline (tick + 1) (now + 5000 + dur tick)
        (pollTick check tick pending reregistered).1
        (pollTick check tick pending reregistered).2
    have harith : (tick + 1) + (deadline - (now + 5000 + dur tick) + 4999) / 5000
        ≤ tick + (deadline - now + 4999) / 5000 := by omega
    exact Nat.le_trans hrec harith
  case isFalse h => exact Nat.le_add_right tick _
termination_by tick now => deadline - now
decreasing_by omega

theorem convergeLoop_perm (check : Nat → String → Bool) (dur : Nat → Nat)
    (deadline : Nat) :
    (tick now : Nat) → (pending reregistered : List String) →
      List.Perm
        ((convergeLoop check dur deadline tick now pending reregistered).pending
          ++ (convergeLoop check dur deadline tick now pending reregistered).reregistered)
        (pending ++ reregistered) := by
  intro tick now pending reregistered
  rw [convergeLoop]
  split
  case isTrue h =>
    have hrec :=
      convergeLoop_perm check dur deadline (tick + 1) (now + 5000 + dur tick)
        (pollTick check tick pending reregistered).1
        (pollTick check tick pending reregistered).2
    refine hrec.trans ?_
    simp only [pollTick]
    have hfp : List.Perm
        (pending.filter (fun h => check tick h)
          ++ pending.filter (fun h => !check tick h)) pending :=
      List.filter_append_perm _ pending
    have hba : List.Perm
        (pending.filter (fun h => !check tick h)
          ++ pending.filter (fun h => check tick h)) pending :=
      List.Perm.trans List.perm_append_comm hfp
    have step1 : List.Perm
        (pending.filter (fun h => !check tick h)
          ++ (reregistered ++ pending.filter (fun h => check tick h)))
        (pending.filter (fun h => !check tick h)
          ++ (pending.filter (fun h => check tick h) ++ reregistered)) :=
      List.Perm.append_left _ List.perm_append_comm
    have step2 : List.Perm
        ((pending.filter (fun h => !check tick h)
          ++ pending.filter (fun h => check tick h)) ++ reregistered)
        (pending ++ reregistered) :=
      List.Perm.append_right _ hba
    rw [List.append_assoc] at step2
    exact step1.trans step2
  case isFalse h => exact List.Perm.refl _
termination_by tick now => deadline - now
decreasing_by omega

theorem convergeLoop_skipped (check : Nat → String → Bool) (dur : Nat → Nat)
    (deadline : Nat) (p : String) (hp : ∀ k, check k p = false) :
    (tick now : Nat) → (pending reregistered : List String) → p ∈ pending →
      p ∈ (convergeLoop check dur deadline tick now pending reregistered).pending
        ∧ (p ∉ reregistered →
            p ∉ (convergeLoop check dur deadline tick now pending reregistered).reregistered) := by
  intro tick now pending reregistered hmem
  rw [convergeLoop]
  split
  case isTrue h =>
    have hmem1 : p ∈ (pollTick check tick pending reregistered).1 := by
      simp only [pollTick]
      exact List.mem_filter.mpr ⟨hmem, by simp [hp tick]⟩
    have hrec :=
      convergeLoop_skipped check dur deadline p hp (tick + 1) (now + 5000 + dur tick)
        (pollTick check tick pending reregistered).1
        (pollTick check tick pending reregistered).2 hmem1
    refine ⟨hrec.1, fun hnot => hrec.2 ?_⟩
    simp only [pollTick, List.mem_append]
    rintro (hin | hin)
    · exact hnot hin
    · have := (List.mem_filter.mp hin).2
      rw [hp tick] at this
      exact Bool.false_ne_true this
  case isFalse h => exact ⟨hmem, fun hnot => hnot⟩
termination_by tick now => deadline - now
decreasing_by omega

theorem convergeLoop_deadline (check : Nat → String → Bool) (dur : Nat → Nat)
    (deadline : Nat) :
    (tick now : Nat) → (pending reregistered : List String) →
      (convergeLoop check dur deadline tick now pending reregistered).pending ≠ [] →
      deadline ≤ (convergeLoop check dur deadline tick now pending reregistered).now := by
  intro tick now pending reregistered
  rw [convergeLoop]
  split
  case isTrue h =>
    exact convergeLoop_deadline check dur deadline (tick + 1) (now + 5000 + dur tick)
      (pollTick check tick pending reregistered).1
      (pollTick check tick pending reregistered).2
  case isFalse h =>
    intro hne
    simp only [not_and, not_lt, ne_eq] at h
    by_cases hp : pending = []
    · exact absurd hp hne
    · exact h hp
termination_by tick now => deadline - now
decreasing_by omega

theorem resolveConcurrency_pos (opts : Option Nat) : 1 ≤ resolveConcurrency opts := by
  rcases opts with _ | c
  · decide
  · cases c <;> simp [resolveConcurrency]

theorem batch_filter_map_host (f : String → CommandResult) (p : CommandResult → Bool)
    (hf : ∀ h, (f h).host = h) (hosts : List String) :
    ((executeRemoteCommandOnHosts f 5 hosts).filter p).map CommandResult.host
      = hosts.filter (fun h => p (f h)) := by
  rw [executeRemoteCommandOnHosts_eq_map, List.filter_map, List.map_map]
  have h1 : (hosts.filter (p ∘ f)).map (CommandResult.host ∘ f)
      = (hosts.filter (p ∘ f)).map id :=
    List.map_congr_left (fun a _ => hf a)
  rw [h1, List.map_id]
  rfl

/-! ### Claims -/

/-- C1: for every endpoint list of size N and every concurrency option, the
batch runner (`executeRemoteCommandOnHosts`, and the identical
`executeInPods`) returns a list of exactly N results whose order matches the
input order; the run is the in-order flattening of the consecutive windows
of size `concurrency` (default 5: `options.concurrency || 5`), every window
is non-empty and no larger than the concurrency, and every window but the
last is exactly full — window k+1 is dispatched only after the recursive
call for window k has produced its results. -/
theorem C1_batch_runner_order_and_windows (opts : Option Nat)
    (exec : String → CommandResult) (hosts : List String) :
    1 ≤ resolveConcurrency opts
    ∧ resolveConcurrency none = 5
    ∧ (executeRemoteCommandOnHosts exec (resolveConcurrency opts) hosts).length
        = hosts.length
    ∧ executeRemoteCommandOnHosts exec (resolveConcurrency opts) hosts = hosts.map exec
    ∧ executeRemoteCommandOnHosts exec (resolveConcurrency opts) hosts
        = ((chunkHosts (resolveConcurrency opts) hosts).map (List.map exec)).flatten
    ∧ (chunkHosts (resolveConcurrency opts) hosts).flatten = hosts
    ∧ (∀ w ∈ chunkHosts (resolveConcurrency opts) hosts,
        w ≠ [] ∧ w.length ≤ resolveConcurrency opts)
    ∧ (∀ w ∈ (chunkHosts (resolveConcurrency opts) hosts).dropLast,
        w.length = resolveConcurrency opts) := by
  refine ⟨resolveConcurrency_pos opts, rfl, ?_, ?_, ?_, ?_, ?_, ?_⟩
  · rw [executeRemoteCommandOnHosts_eq_map, List.length_map]
  · exact executeRemoteCommandOnHosts_eq_map exec _ hosts
  · exact executeRemoteCommandOnHosts_eq_chunked exec _ hosts
  · exact chunkHosts_flatten _ hosts
  · exact chunkHosts_window_size _ (resolveConcurrency_pos opts) hosts
  · exact chunkHosts_full_windows _ (resolveConcurrency_pos opts) hosts

/-- C2 (counterexample): the claim says every resolution path checks and
sets a single settled flag so that double-resolution is impossible.  In the
ssh client the exec-error path (ssh-client.ts lines 79-91) sets the flag and
resolves without first checking it, so when the timeout fires and the exec
callback then reports an error — a reachable order, since the timeout's
`client.end()` makes the pending exec callback fail — `resolve` is called a
second time. -/
theorem C2_ssh_exec_error_double_resolution :
    ((sshRun 2000 "node1.example.com"
        [SshEvent.timeoutFires, SshEvent.execErr "channel open failure"]).resolveCalls).length
      = 2 := by
  decide

/-- C2 (amended): every resolution path of the kubectl client checks and
sets the settled flag, so at most one call to resolve occurs under any event
sequence; the ssh client guarantees the same for every event sequence that
contains no exec-error callback — the exec-error path is the one path that
resolves without checking the flag (a second resolve is ignored by the
already-settled JS promise, so each call still yields exactly one outcome
and never throws). -/
theorem C2_single_resolution_guard :
    (∀ (t : Nat) (p : String) (evs : List K8sEvent),
      ((k8sRun t p evs).resolveCalls).length ≤ 1)
    ∧ (∀ (t : Nat) (h : String) (evs : List SshEvent),
        (∀ m, SshEvent.execErr m ∉ evs) →
        ((sshRun t h evs).resolveCalls).length ≤ 1) := by
  constructor
  · intro t p evs
    rcases k8sRun_settledInv t p evs with ⟨_, h2⟩ | ⟨_, h2⟩ <;> simp [h2]
  · intro t h evs he
    rcases sshRun_settledInv t h evs he with ⟨_, h2⟩ | ⟨_, h2⟩ <;> simp [h2]

/-- C2 (witness): the amended guarantee applied to concrete race sequences
in which the timeout fires first and the completion event arrives late. -/
theorem C2_single_resolution_guard_witness :
    ((k8sRun 2000 "ambari-agent-0"
        [K8sEvent.timeoutFires, K8sEvent.procClose (some 0)]).resolveCalls).length ≤ 1
    ∧ ((sshRun 2000 "node1.example.com"
        [SshEvent.timeoutFires, SshEvent.streamClose 0]).resolveCalls).length ≤ 1 :=
  ⟨C2_single_resolution_guard.1 2000 "ambari-agent-0" _,
   C2_single_resolution_guard.2 2000 "node1.example.com" _ (by intro m; simp)⟩

/-- C5: when the per-call timeout fires before the command completed (the
timer is live and nothing has resolved), both transports forcibly terminate
the underlying session/process (`client.end()` / `proc.kill`), and resolve
with success `false`, exit code `null` and an error message that contains
the text "timed out after <timeoutMs>ms" with the configured timeout value
interpolated; and in a batch every other endpoint's result is exactly its
own execution's outcome, unaffected by the timed-out endpoint. -/
theorem C5_timeout_result_shape :
    (∀ (t : Nat) (host : String) (s : SshState),
      s.resolved = false → s.timeoutCleared = false →
      (sshStep t host s SshEvent.timeoutFires).clientEnded = true
      ∧ (sshStep t host s SshEvent.timeoutFires).resolveCalls
          = s.resolveCalls ++
            [{ host := host, success := false, stdout := s.stdout, stderr := s.stderr,
               exitCode := none, error := some (sshTimeoutMsg t) }])
    ∧ (∀ (t : Nat) (pod : String) (s : K8sState),
      s.resolved = false → s.timeoutCleared = false →
      (k8sStep t pod s K8sEvent.timeoutFires).procKilled = true
      ∧ (k8sStep t pod s K8sEvent.timeoutFires).resolveCalls
          = s.resolveCalls ++
            [{ host := pod, success := false, stdout := s.stdout, stderr := s.stderr,
               exitCode := none, error := some (k8sTimeoutMsg t) }])
    ∧ (∀ t : Nat, ∃ pre post,
        sshTimeoutMsg t = pre ++ ("timed out after " ++ toString t ++ "ms") ++ post)
    ∧ (∀ t : Nat, ∃ pre post,
        k8sTimeoutMsg t = pre ++ ("timed out after " ++ toString t ++ "ms") ++ post)
    ∧ (∀ (exec : String → CommandResult) (opts : Option Nat) (hosts : List String),
        executeRemoteCommandOnHosts exec (resolveConcurrency opts) hosts
          = hosts.map exec) := by
  refine ⟨?_, ?_, ?_, ?_, ?_⟩
  · intro t host s h1 h2
    simp [sshStep, h1, h2]
  · intro t pod s h1 h2
    simp [k8sStep, h1, h2]
  · intro t
    refine ⟨"Connection ", "", ?_⟩
    rw [String.append_empty, sshTimeoutMsg, ← String.append_assoc, ← String.append_assoc]
    have hlit : ("Connection " ++ "timed out after " : String)
        = "Connection timed out after " := by decide
    rw [hlit]
  · intro t
    refine ⟨"Command ", "", ?_⟩
    rw [String.append_empty, k8sTimeoutMsg, ← String.append_assoc, ← String.append_assoc]
    have hlit : ("Command " ++ "timed out after " : String)
        = "Command timed out after " := by decide
    rw [hlit]
  · intro exec opts hosts
    exact executeRemoteCommandOnHosts_eq_map exec _ hosts

/-- C5 (witness): the timeout shape applied to a fresh call with a 2000 ms
timeout, as in the spec's Scenario D. -/
theorem C5_timeout_result_shape_witness :
    (sshStep 2000 "node1.example.com" sshInit SshEvent.timeoutFires).clientEnded = true
    ∧ (sshStep 2000 "node1.example.com" sshInit SshEvent.timeoutFires).resolveCalls
        = sshInit.resolveCalls ++
          [{ host := "node1.example.com", success := false, stdout := sshInit.stdout,
             stderr := sshInit.stderr, exitCode := none,
             error := some (sshTimeoutMsg 2000) }] :=
  C5_timeout_result_shape.1 2000 "node1.example.com" sshInit rfl rfl

theorem sshCheck_eq_true_iff (baseline : String → Nat)
    (obs : Nat → String → Option (Option Nat × Option String)) (tick : Nat) (h : String) :
    sshCheck baseline obs tick h = true
      ↔ ∃ hb status, obs tick h = some (hb, status)
          ∧ baseline h < hb.getD 0 ∧ status = some healthyLabel := by
  unfold sshCheck
  match hobs : obs tick h with
  | none => simp
  | some (hb, status) =>
    simp only [Bool.and_eq_true, decide_eq_true_eq, Option.some.injEq, Prod.mk.injEq]
    constructor
    · rintro ⟨h1, h2⟩
      exact ⟨hb, status, ⟨rfl, rfl⟩, h1, h2⟩
    · rintro ⟨hb2, status2, ⟨he1, he2⟩, h1, h2⟩
      subst he1; subst he2
      exact ⟨h1, h2⟩

theorem mem_pollTick_still (check : Nat → String → Bool) (tick : Nat)
    (pending reregistered : List String) (h : String) (hmem : h ∈ pending) :
    h ∈ (pollTick check tick pending reregistered).1 ↔ check tick h = false := by
  simp only [pollTick, List.mem_filter, Bool.not_eq_eq_eq_not, Bool.not_true]
  constructor
  · rintro ⟨_, hc⟩; exact hc
  · intro hc; exact ⟨hmem, hc⟩

theorem mem_pollTick_rereg (check : Nat → String → Bool) (tick : Nat)
    (pending reregistered : List String) (h : String) (hmem : h ∈ pending)
    (hnot : h ∉ reregistered) :
    h ∈ (pollTick check tick pending reregistered).2 ↔ check tick h = true := by
  simp only [pollTick, List.mem_append, List.mem_filter]
  constructor
  · rintro (hin | ⟨_, hc⟩)
    · exact absurd hin hnot
    · exact hc
  · intro hc; exact Or.inr ⟨hmem, hc⟩

/-- C3: during a convergence run a pending endpoint is removed from the
pending set and appended to the reregistered list by a poll tick if and only
if its health fetch succeeded and the observed heartbeat is strictly newer
than its baseline and the observed status equals HEALTHY; an observation
whose status is not HEALTHY never converges it, however fresh its heartbeat,
and a thrown fetch leaves it pending.  For a pod with a known hostname the
k8s tick test coincides with the ssh one. -/
theorem C3_convergence_predicate (baseline : String → Nat)
    (obs : Nat → String → Option (Option Nat × Option String)) (tick : Nat)
    (pending reregistered : List String) (h : String)
    (hmem : h ∈ pending) (hnot : h ∉ reregistered) :
    ((h ∉ (pollTick (sshCheck baseline obs) tick pending reregistered).1
        ∧ h ∈ (pollTick (sshCheck baseline obs) tick pending reregistered).2)
      ↔ (∃ hb status, obs tick h = some (hb, status)
            ∧ baseline h < hb.getD 0 ∧ status = some healthyLabel))
    ∧ (∀ hb status, obs tick h = some (hb, status) → status ≠ some healthyLabel →
        h ∈ (pollTick (sshCheck baseline obs) tick pending reregistered).1
          ∧ h ∉ (pollTick (sshCheck baseline obs) tick pending reregistered).2)
    ∧ (obs tick h = none →
        h ∈ (pollTick (sshCheck baseline obs) tick pending reregistered).1)
    ∧ (∀ hostnameMap : String → Option String, (hostnameMap h).isSome = true →
        k8sCheck hostnameMap baseline obs tick h = sshCheck baseline obs tick h) := by
  refine ⟨?_, ?_, ?_, ?_⟩
  · rw [mem_pollTick_still (sshCheck baseline obs) tick pending reregistered h hmem,
      mem_pollTick_rereg (sshCheck baseline obs) tick pending reregistered h hmem hnot,
      ← sshCheck_eq_true_iff baseline obs tick h]
    constructor
    · rintro ⟨_, hc⟩; exact hc
    · intro hc
      exact ⟨by simp [hc], hc⟩
  · intro hb status hobs hstatus
    have hc : sshCheck baseline obs tick h = false := by
      unfold sshCheck
      rw [hobs]
      simp [hstatus]
    constructor
    · exact (mem_pollTick_still _ tick pending reregistered h hmem).mpr hc
    · rw [mem_pollTick_rereg _ tick pending reregistered h hmem hnot, hc]
      simp
  · intro hobs
    have hc : sshCheck baseline obs tick h = false := by
      unfold sshCheck
      rw [hobs]
    exact (mem_pollTick_still _ tick pending reregistered h hmem).mpr hc
  · intro hostnameMap hsome
    unfold k8sCheck
    match hmm : hostnameMap h with
    | none => rw [hmm] at hsome; simp at hsome
    | some hn => rfl

/-- C3 (witness): a fresh HEALTHY observation with heartbeat 10 over
baseline 5 converges the endpoint on that tick. -/
theorem C3_convergence_predicate_witness :
    "node1" ∉ (pollTick
        (sshCheck (fun _ => 5) (fun _ _ => some (some 10, some "HEALTHY"))) 0
        ["node1"] []).1
    ∧ "node1" ∈ (pollTick
        (sshCheck (fun _ => 5) (fun _ _ => some (some 10, some "HEALTHY"))) 0
        ["node1"] []).2 :=
  (C3_convergence_predicate (fun _ => 5) (fun _ _ => some (some 10, some "HEALTHY"))
      0 ["node1"] [] "node1" (by decide) (by decide)).1.mpr
    ⟨some 10, some "HEALTHY", rfl, by decide, rfl⟩

/-- C6: for an endpoint whose baseline health fetch failed, the recorded
baseline heartbeat is 0, and consequently a poll observation with a strictly
positive heartbeat and HEALTHY status removes it from the pending set on
that very tick. -/
theorem C6_missing_baseline_defaults_to_zero
    (baselineFetch : String → Option (Option Nat))
    (obs : Nat → String → Option (Option Nat × Option String))
    (tick : Nat) (pending reregistered : List String) (h : String) (hb : Nat)
    (hfail : baselineFetch h = none)
    (hobs : obs tick h = some (some hb, some healthyLabel))
    (hpos : 0 < hb) (hmem : h ∈ pending) :
    mkBaseline baselineFetch h = 0
    ∧ h ∉ (pollTick (sshCheck (mkBaseline baselineFetch) obs) tick pending reregistered).1 := by
  have hbase : mkBaseline baselineFetch h = 0 := by
    unfold mkBaseline
    rw [hfail]
  have hc : sshCheck (mkBaseline baselineFetch) obs tick h = true := by
    unfold sshCheck
    rw [hobs, hbase]
    simpa using hpos
  refine ⟨hbase, ?_⟩
  rw [mem_pollTick_still _ tick pending reregistered h hmem, hc]
  simp

/-- C6 (witness): a first observation with heartbeat 1 and HEALTHY status
converges an endpoint whose baseline fetch failed. -/
theorem C6_missing_baseline_defaults_to_zero_witness :
    mkBaseline (fun _ => none) "node1" = 0
    ∧ "node1" ∉ (pollTick
        (sshCheck (mkBaseline (fun _ => none)) (fun _ _ => some (some 1, some "HEALTHY")))
        0 ["node1"] []).1 :=
  C6_missing_baseline_defaults_to_zero (fun _ => none)
    (fun _ _ => some (some 1, some "HEALTHY")) 0 ["node1"] [] "node1" 1
    rfl rfl (by decide) (by decide)

/-- C7: with the fixed 5000 ms poll interval and deadline
`waitTimeSeconds * 1000` ms, the polling loop — which runs only while the
pending set is non-empty and the elapsed time is below the deadline, and
sleeps the interval before each round of fetches — performs at most
`ceil(waitTimeSeconds / 5) = ceil(deadline / 5000)` iterations, whatever the
pending set and the per-tick fetch durations. -/
theorem C7_poll_iteration_bound (check : Nat → String → Bool) (dur : Nat → Nat)
    (waitArg : Option Nat) (pending reregistered : List String) :
    (convergeLoop check dur (resolveWaitTime waitArg * 1000) 0 0
        pending reregistered).ticks
      ≤ (resolveWaitTime waitArg + 4) / 5
    ∧ (resolveWaitTime waitArg + 4) / 5
        = (resolveWaitTime waitArg * 1000 + 4999) / 5000 := by
  have hb := convergeLoop_ticks_le check dur (resolveWaitTime waitArg * 1000) 0 0
    pending reregistered
  constructor
  · omega
  · omega

/-- C4: the pending set of a convergence run starts as exactly the endpoints
whose restart command succeeded (restart-failed endpoints never enter it),
every poll tick only removes elements from it, and at the end of a run over
duplicate-free targets each endpoint lies in at most one of the groups
reregistered, still-pending, restart-failed: still-pending and reregistered
together are a permutation of the restart-succeeded endpoints, they are
disjoint, and both are disjoint from the restart-failed endpoints. -/
theorem C4_pending_lifecycle (hosts : List String)
    (restartExec : String → CommandResult)
    (baselineFetch : String → Option (Option Nat))
    (obs : Nat → String → Option (Option Nat × Option String))
    (dur : Nat → Nat) (waitArg : Option Nat)
    (hnodup : hosts.Nodup) (hexec : ∀ h, (restartExec h).host = h) :
    ((executeRemoteCommandOnHosts restartExec 5 hosts).filter (fun r => r.success)).map
        CommandResult.host
      = hosts.filter (fun h => (restartExec h).success)
    ∧ (∀ (check : Nat → String → Bool) (k : Nat) (pending rr : List String),
        ((pollTick check k pending rr).1).length ≤ pending.length
        ∧ (pollTick check k pending rr).1 ⊆ pending)
    ∧ (∀ tot a b c still rereg failed ws,
        ambari_ssh_restart_agent_and_wait true none hosts restartExec baselineFetch obs
            dur waitArg = Except.ok (RunOutcome.aggregate tot a b c still rereg failed ws) →
        List.Perm (still ++ rereg) (hosts.filter (fun h => (restartExec h).success))
        ∧ still.Disjoint rereg
        ∧ (∀ x ∈ still ++ rereg, x ∉ failed.map Prod.fst)) := by
  refine ⟨batch_filter_map_host restartExec (fun r => r.success) hexec hosts, ?_, ?_⟩
  · intro check k pending rr
    exact ⟨List.length_filter_le _ pending, List.filter_subset' pending⟩
  · intro tot a b c still rereg failed ws hrun
    unfold ambari_ssh_restart_agent_and_wait at hrun
    simp only [Bool.not_true, resolveHosts, if_false, Bool.false_eq_true] at hrun
    rw [batch_filter_map_host restartExec (fun r => r.success) hexec hosts] at hrun
    split at hrun
    · exact absurd hrun (by simp)
    · split at hrun
      · exact absurd hrun (by simp)
      · rw [Except.ok.injEq, RunOutcome.aggregate.injEq] at hrun
        obtain ⟨-, -, -, -, hstill, hrereg, hfailed, -⟩ := hrun
        have hperm0 := convergeLoop_perm
          (sshCheck (mkBaseline baselineFetch) obs) dur
          (resolveWaitTime waitArg * 1000) 0 0
          (hosts.filter (fun h => (restartExec h).success)) []
        rw [List.append_nil] at hperm0
        rw [← hstill, ← hrereg]
        have hPnodup : (hosts.filter (fun h => (restartExec h).success)).Nodup :=
          hnodup.filter _
        have hnd := (hperm0.symm.nodup hPnodup)
        refine ⟨hperm0, (List.nodup_append.mp hnd).2.2, ?_⟩
        intro x hx hxf
        have hxP : x ∈ hosts.filter (fun h => (restartExec h).success) :=
          hperm0.mem_iff.mp hx
        have hxs : (restartExec x).success = true := (List.mem_filter.mp hxP).2
        rw [← hfailed] at hxf
        rw [List.map_map] at hxf
        have hfn : ((executeRemoteCommandOnHosts restartExec 5 hosts).filter
            (fun r => !r.success)).map CommandResult.host
            = hosts.filter (fun h => !(restartExec h).success) :=
          batch_filter_map_host restartExec (fun r => !r.success) hexec hosts
        have hxf2 : x ∈ hosts.filter (fun h => !(restartExec h).success) := by
          rw [← hfn]
          exact hxf
        have := (List.mem_filter.mp hxf2).2
        rw [hxs] at this
        simp at this

/-- Restart outcome oracle used to exercise C4: the restart command succeeds
on node1 and fails on node2. -/
def wExec : String → CommandResult := fun h =>
  { host := h, success := h == "node1", stdout := "", stderr := "",
    exitCode := some 0, error := none }

/-- C4 (witness): a concrete two-host run in which node1 restarts and
re-registers on the first tick while node2 fails to restart. -/
theorem C4_pending_lifecycle_witness :
    List.Perm (([] : List String) ++ ["node1"])
        (["node1", "node2"].filter (fun h => (wExec h).success))
    ∧ List.Disjoint ([] : List String) ["node1"]
    ∧ (∀ x ∈ ([] : List String) ++ ["node1"], x ∉ ([("node2", "")].map Prod.fst)) :=
  (C4_pending_lifecycle ["node1", "node2"] wExec (fun _ => none)
      (fun _ _ => some (some 1, some "HEALTHY")) (fun _ => 0) (some 5)
      (by decide) (fun _ => rfl)).2.2 2 1 1 1 [] ["node1"] [("node2", "")] 5
    (by
      simp [ambari_ssh_restart_agent_and_wait, resolveHosts, resolveWaitTime,
        executeRemoteCommandOnHosts, wExec, convergeLoop, pollTick, sshCheck,
        mkBaseline, errorOrStderr, healthyLabel])

theorem length_filter_add_length_filter_not {α : Type} (p : α → Bool) (l : List α) :
    (l.filter p).length + (l.filter (fun x => !p x)).length = l.length := by
  have h := (List.filter_append_perm p l).length_eq
  simpa using h

/-- Restart outcome oracle whose restart command fails on every host with a
connection error, used to exercise C8. -/
def connRefusedExec : String → CommandResult := fun h =>
  { host := h, success := false, stdout := "", stderr := "",
    exitCode := none, error := some "SSH connection error: connect ECONNREFUSED" }

/-- C8 (counterexample): the claim says the aggregate — restart-succeeded
count, restart-failed count with details, reregistered count, still-pending
list, waited seconds — is returned even when the restart command failed on
every endpoint.  With one successfully targeted host whose restart fails,
the executor instead takes the early return of ssh-tools.ts lines 353-358
and produces the reduced all-failed shape, which carries none of those
aggregate fields. -/
theorem C8_all_failed_early_return :
    ambari_ssh_restart_agent_and_wait true none ["node1"] connRefusedExec
        (fun _ => none) (fun _ _ => none) (fun _ => 0) none
      = Except.ok (RunOutcome.allFailed [connRefusedExec "node1"])
    ∧ (RunOutcome.allFailed [connRefusedExec "node1"]).hasAggregateFields = false := by
  constructor
  · simp [ambari_ssh_restart_agent_and_wait, resolveHosts,
      executeRemoteCommandOnHosts, connRefusedExec]
  · rfl

/-- C8 (amended): once at least one endpoint was successfully targeted, the
operation always returns a structured value, never a thrown error; when at
least one restart command succeeded it is the full aggregate (whose
restart-succeeded and restart-failed counts sum to the target count and
whose reregistered count matches the reregistered list), and when every
restart command failed it is the reduced early-return shape carrying only
the per-endpoint restart results. -/
theorem C8_structured_partial_result (hostsArg : Option String)
    (discovered : List String) (restartExec : String → CommandResult)
    (baselineFetch : String → Option (Option Nat))
    (obs : Nat → String → Option (Option Nat × Option String))
    (dur : Nat → Nat) (waitArg : Option Nat)
    (hne : resolveHosts hostsArg discovered ≠ []) :
    (∃ o, ambari_ssh_restart_agent_and_wait true hostsArg discovered restartExec
        baselineFetch obs dur waitArg = Except.ok o)
    ∧ ((executeRemoteCommandOnHosts restartExec 5 (resolveHosts hostsArg discovered)).filter
          (fun r => r.success) = [] →
        ambari_ssh_restart_agent_and_wait true hostsArg discovered restartExec
            baselineFetch obs dur waitArg
          = Except.ok (RunOutcome.allFailed
              (executeRemoteCommandOnHosts restartExec 5 (resolveHosts hostsArg discovered))))
    ∧ ((executeRemoteCommandOnHosts restartExec 5 (resolveHosts hostsArg discovered)).filter
          (fun r => r.success) ≠ [] →
        ∃ a b c still rereg failed ws,
          ambari_ssh_restart_agent_and_wait true hostsArg discovered restartExec
              baselineFetch obs dur waitArg
            = Except.ok (RunOutcome.aggregate (resolveHosts hostsArg discovered).length
                a b c still rereg failed ws)
          ∧ a + b = (resolveHosts hostsArg discovered).length
          ∧ c = rereg.length) := by
  have hie : ¬((resolveHosts hostsArg discovered).isEmpty = true) := by
    intro hcon
    exact hne (List.isEmpty_iff.mp hcon)
  refine ⟨?_, ?_, ?_⟩
  · unfold ambari_ssh_restart_agent_and_wait
    simp only [Bool.not_true, Bool.false_eq_true, if_false]
    rw [if_neg hie]
    split
    · exact ⟨_, rfl⟩
    · exact ⟨_, rfl⟩
  · intro hfail
    unfold ambari_ssh_restart_agent_and_wait
    simp only [Bool.not_true, Bool.false_eq_true, if_false]
    rw [if_neg hie]
    rw [if_pos (by rw [hfail]; rfl)]
  · intro hsome
    unfold ambari_ssh_restart_agent_and_wait
    simp only [Bool.not_true, Bool.false_eq_true, if_false]
    rw [if_neg hie]
    rw [if_neg (by
      intro hcon
      exact hsome (by simpa using hcon))]
    refine ⟨_, _, _, _, _, _, _, rfl, ?_, rfl⟩
    rw [List.length_map, length_filter_add_length_filter_not,
      executeRemoteCommandOnHosts_eq_map, List.length_map]

/-- C8 (witness): the amended guarantee applied to a one-host run whose
restart fails: the result is still a structured `ok` value. -/
theorem C8_structured_partial_result_witness :
    ∃ o, ambari_ssh_restart_agent_and_wait true none ["node1"] connRefusedExec
        (fun _ => none) (fun _ _ => none) (fun _ => 0) none = Except.ok o :=
  (C8_structured_partial_result none ["node1"] connRefusedExec (fun _ => none)
      (fun _ _ => none) (fun _ => 0) none (by decide)).1

/-- C9: for every batch operation — restart, run-command, check-status
(instances of `sshBatchTool` / `k8sBatchTool`) and restart-and-wait — an
empty resolved target set makes the tool return its explicit no-targets
error, and no remote command is dispatched (the `attempted` endpoint list of
the batch tools is empty, and the restart-and-wait executors return before
their restart batch). -/
theorem C9_empty_targets_error :
    (∀ (emptyMsg : String) (hostsArg : Option String) (discovered : List String)
        (exec : String → CommandResult),
      resolveHosts hostsArg discovered = [] →
      sshBatchTool true emptyMsg hostsArg discovered exec
        = (Except.error emptyMsg, []))
    ∧ (∀ (emptyMsg : String) (podsArg : Option String) (discovered : List PodInfo)
        (exec : String → CommandResult),
      resolvePods podsArg discovered = [] →
      k8sBatchTool true emptyMsg podsArg discovered exec
        = (Except.error emptyMsg, []))
    ∧ (∀ (hostsArg : Option String) (discovered : List String)
        (restartExec : String → CommandResult)
        (baselineFetch : String → Option (Option Nat))
        (obs : Nat → String → Option (Option Nat × Option String))
        (dur : Nat → Nat) (waitArg : Option Nat),
      resolveHosts hostsArg discovered = [] →
      ambari_ssh_restart_agent_and_wait true hostsArg discovered restartExec
          baselineFetch obs dur waitArg = Except.error "No hosts found.")
    ∧ (∀ (podsArg : Option String) (discovered : List PodInfo)
        (hostnameMap : String → Option String)
        (restartExec : String → CommandResult)
        (baselineFetch : String → Option (Option Nat))
        (obs : Nat → String → Option (Option Nat × Option String))
        (dur : Nat → Nat) (waitArg : Option Nat),
      resolvePods podsArg discovered = [] →
      ambari_k8s_restart_agent_and_wait true podsArg discovered hostnameMap restartExec
          baselineFetch obs dur waitArg = Except.error "No pods found.") := by
  refine ⟨?_, ?_, ?_, ?_⟩
  · intro emptyMsg hostsArg discovered exec h
    simp [sshBatchTool, h]
  · intro emptyMsg podsArg discovered exec h
    simp [k8sBatchTool, h]
  · intro hostsArg discovered restartExec baselineFetch obs dur waitArg h
    simp [ambari_ssh_restart_agent_and_wait, h]
  · intro podsArg discovered hostnameMap restartExec baselineFetch obs dur waitArg h
    simp [ambari_k8s_restart_agent_and_wait, h]

/-- C9 (witness): an explicit host list that parses to nothing (only commas
and blanks) and a discovery that returns only a non-ready pod both surface
the no-targets error with nothing dispatched. -/
theorem C9_empty_targets_error_witness :
    sshBatchTool true "No hosts found to run command on." (some " , ,")
        ["cluster-host-1"] connRefusedExec
      = (Except.error "No hosts found to run command on.", [])
    ∧ k8sBatchTool true "No pods found to restart agent in." none
        [{ name := "ambari-agent-0", status := "Pending", ready := false }]
        connRefusedExec
      = (Except.error "No pods found to restart agent in.", []) :=
  ⟨C9_empty_targets_error.1 "No hosts found to run command on." (some " , ,")
      ["cluster-host-1"] connRefusedExec (by decide),
   C9_empty_targets_error.2.1 "No pods found to restart agent in." none
      [{ name := "ambari-agent-0", status := "Pending", ready := false }]
      connRefusedExec (by decide)⟩

/-- C10: in the k8s restart-and-wait operation, a pod with no entry in the
pod-to-hostname map is skipped by every poll tick, so when its restart
command succeeded it is never removed from the pending set: it appears in
the still-pending list of the final aggregate, never among the
reregistered pods, and the polling loop runs until the deadline on its
account (the waited seconds reach the configured wait time). -/
theorem C10_hostnameless_pod_never_converges (podsArg : Option String)
    (discovered : List PodInfo) (hostnameMap : String → Option String)
    (restartExec : String → CommandResult)
    (baselineFetch : String → Option (Option Nat))
    (obs : Nat → String → Option (Option Nat × Option String))
    (dur : Nat → Nat) (waitArg : Option Nat) (p : String)
    (hmap : hostnameMap p = none)
    (hmem : p ∈ resolvePods podsArg discovered)
    (hsucc : (restartExec p).success = true)
    (hexec : ∀ h, (restartExec h).host = h) :
    ∃ tot a b c still rereg failed ws,
      ambari_k8s_restart_agent_and_wait true podsArg discovered hostnameMap restartExec
          baselineFetch obs dur waitArg
        = Except.ok (RunOutcome.aggregate tot a b c still rereg failed ws)
      ∧ p ∈ still ∧ p ∉ rereg ∧ resolveWaitTime waitArg ≤ ws := by
  have hie : ¬((resolvePods podsArg discovered).isEmpty = true) := by
    intro hcon
    rw [List.isEmpty_iff.mp hcon] at hmem
    exact List.not_mem_nil p hmem
  have hmem2 : p ∈ (resolvePods podsArg discovered).filter
      (fun h => (restartExec h).success) :=
    List.mem_filter.mpr ⟨hmem, hsucc⟩
  have hcheck : ∀ k,
      k8sCheck hostnameMap (k8sBaseline hostnameMap baselineFetch) obs k p = false := by
    intro k
    unfold k8sCheck
    rw [hmap]
  have hskip := convergeLoop_skipped
    (k8sCheck hostnameMap (k8sBaseline hostnameMap baselineFetch) obs) dur
    (resolveWaitTime waitArg * 1000) p hcheck 0 0
    ((resolvePods podsArg discovered).filter (fun h => (restartExec h).success)) []
    hmem2
  have hstill := hskip.1
  have hrereg := hskip.2 (List.not_mem_nil p)
  have hdead := convergeLoop_deadline
    (k8sCheck hostnameMap (k8sBaseline hostnameMap baselineFetch) obs) dur
    (resolveWaitTime waitArg * 1000) 0 0
    ((resolvePods podsArg discovered).filter (fun h => (restartExec h).success)) []
    (List.ne_nil_of_mem hstill)
  unfold ambari_k8s_restart_agent_and_wait
  simp only [Bool.not_true, Bool.false_eq_true, if_false]
  rw [if_neg hie]
  rw [batch_filter_map_host restartExec (fun r => r.success) hexec
    (resolvePods podsArg discovered)]
  rw [if_neg (by
    intro hcon
    rw [List.isEmpty_iff.mp hcon] at hmem2
    exact List.not_mem_nil p hmem2)]
  refine ⟨_, _, _, _, _, _, _, _, rfl, hstill, hrereg, ?_⟩
  omega

/-- Pod set used to exercise C10: one ready, running pod whose hostname
lookup produced nothing. -/
def c10Pods : List PodInfo := [{ name := "ambari-agent-0", status := "Running", ready := true }]

/-- Restart outcome oracle whose restart command succeeds everywhere. -/
def okExec : String → CommandResult := fun h =>
  { host := h, success := true, stdout := "", stderr := "", exitCode := some 0, error := none }

/-- C10 (witness): the hostnameless-pod guarantee applied to a one-pod run
with a 5 second wait. -/
theorem C10_hostnameless_pod_never_converges_witness :
    ∃ tot a b c still rereg failed ws,
      ambari_k8s_restart_agent_and_wait true none c10Pods (fun _ => none) okExec
          (fun _ => none) (fun _ _ => some (some 1, some "HEALTHY")) (fun _ => 0)
          (some 5)
        = Except.ok (RunOutcome.aggregate tot a b c still rereg failed ws)
      ∧ "ambari-agent-0" ∈ still ∧ "ambari-agent-0" ∉ rereg ∧ resolveWaitTime (some 5) ≤ ws :=
  C10_hostnameless_pod_never_converges none c10Pods (fun _ => none) okExec
    (fun _ => none) (fun _ _ => some (some 1, some "HEALTHY")) (fun _ => 0) (some 5)
    "ambari-agent-0" rfl (by decide) rfl (fun _ => rfl)

end AmbariMcp
